import Mathlib

/-!
Shallow embedding of the `sinu5oid/cache` repository (in-memory facade and
shared helpers), faithful to the Go source.

Modelling notes, tied to the source:

* Time is modelled as `Nat` and passed explicitly as `now`; Go's
  `time.Now()` inside `get`/`set` becomes a `now` argument at each call.
* The backend (`sync.Map` in the inmem package, the ARC cache in the lru
  package) stores dynamically-typed values; `get` downcasts them to
  `withTTL[T]`. We model a backend slot as `Raw T`: either a well-typed
  `withTTL` envelope or an untypeable blob (`Raw.corrupt`), so the failed
  downcast branch of `get` is representable.
* The backend itself is an association list with at most one binding per
  key, with `load`/`store`/`eraseKey` mirroring `Load`/`Store`/`Delete`.
  The lru facade differs from the inmem one only in this backend (eviction
  is the external hashicorp library's concern); the facade logic embedded
  here is textually identical in both packages.
* The wait registry `rwQueue` maps keys to channels, but every channel the
  Go code ever stores is created and *immediately closed* while still
  empty (`done := make(chan ...)` followed by `close(done)`).  A receive
  from such a channel yields the zero value of the element type at once,
  and a send on it panics.  Since the only datum a registry entry carries
  is "present", the registry is modelled as the list of claimed keys, and
  the channel semantics are inlined where `GetOrFetch` uses them:
  the follower's `<-c` returns `(zero value, nil)` immediately, and the
  leader's `done <- ...` is a run-time panic, modelled by the
  `GoFetchOutcome.crashed` outcome.
* Go's `*new(T)` zero value is modelled by `default` from `Inhabited T`.
-/

namespace CacheRepo

/-- Error taxonomy of the root package (`errors.go`): `MissingEntryError`
and `FailedToCastEntryError` (whose optional cause is always `nil` in the
call sites modelled here). -/
inductive CacheError where
  | missingEntry (key : String)
  | failedToCastEntry (key : String)
deriving DecidableEq, Repr

/-- The TTL envelope `withTTL[T]` stored in the backend. -/
structure WithTTL (T : Type) where
  updatedAt : Nat
  ttl : Option Nat
  value : T
deriving DecidableEq, Repr

/-- Liveness of an envelope at time `now`, as decided by the source's
`get`: a `nil` TTL never expires; otherwise the entry is returned only
while `updatedAt + ttl > now`. -/
def WithTTL.isLive {T : Type} (e : WithTTL T) (now : Nat) : Bool :=
  match e.ttl with
  | none => true
  | some d => now < e.updatedAt + d

/-- A raw backend slot: the dynamically-typed value either downcasts to a
`withTTL[T]` envelope or it does not (`corrupt`). -/
inductive Raw (T : Type) where
  | entry (e : WithTTL T)
  | corrupt
deriving DecidableEq, Repr

/-- The backend store: an association list with at most one binding per
key (maintained by `store`/`eraseKey`). -/
abbrev Storage (T : Type) := List (String × Raw T)

/-- Backend `Load`. -/
def Storage.load {T : Type} (s : Storage T) (k : String) : Option (Raw T) :=
  (s.find? (fun p => p.1 == k)).map (fun p => p.2)

/-- Backend `Delete`. -/
def Storage.eraseKey {T : Type} (s : Storage T) (k : String) : Storage T :=
  s.filter (fun p => !(p.1 == k))

/-- Backend `Store` (overwrites any existing binding). -/
def Storage.store {T : Type} (s : Storage T) (k : String) (r : Raw T) : Storage T :=
  (k, r) :: s.eraseKey k

/-- The typed cache facade `Cache[T]` of the inmem package (the lru facade
is identical modulo the backing store): backend storage, wait registry
`rwQueue` (see module notes: a set of claimed keys), and the default TTL. -/
structure Cache (T : Type) where
  storage : Storage T
  rwQueue : List String
  defaultTTL : Option Nat
deriving DecidableEq, Repr

/-- The private `get` method: load the raw slot; absent → `MissingEntry`;
failed downcast → delete the slot and `FailedToCastEntry`; expired →
delete the slot and `MissingEntry`; live → the value. Returns the Go
result pair together with the updated facade state. -/
def Cache.get {T : Type} [Inhabited T] (c : Cache T) (key : String) (now : Nat) :
    (T × Option CacheError) × Cache T :=
  match c.storage.load key with
  | none => ((default, some (CacheError.missingEntry key)), c)
  | some Raw.corrupt =>
      ((default, some (CacheError.failedToCastEntry key)),
       { c with storage := c.storage.eraseKey key })
  | some (Raw.entry e) =>
      if e.isLive now then ((e.value, none), c)
      else ((default, some (CacheError.missingEntry key)),
            { c with storage := c.storage.eraseKey key })

/-- The private `set` method: an explicit per-call TTL overrides the
facade's default TTL; the envelope is stamped with the write time. -/
def Cache.set {T : Type} (c : Cache T) (key : String) (value : T)
    (ttl : Option Nat) (now : Nat) : Cache T :=
  let finalTTL := match ttl with
    | some t => some t
    | none => c.defaultTTL
  { c with storage := c.storage.store key (Raw.entry ⟨now, finalTTL, value⟩) }

/-- `SetWithTTL`: `set` with an explicit TTL. -/
def Cache.SetWithTTL {T : Type} (c : Cache T) (key : String) (value : T)
    (ttl : Nat) (now : Nat) : Cache T :=
  c.set key value (some ttl) now

/-- How one `GetOrFetch` call ends: a normal Go return of `(value, err)`,
or a run-time panic (`crashed`) — the fate of the leader's
`done <- getOrFetchResult[T]{result, err}`, a send on the channel that was
closed right after its creation. -/
inductive GoFetchOutcome (T : Type) where
  | ret (value : T) (err : Option CacheError)
  | crashed
deriving DecidableEq, Repr

/-- Result of one `GetOrFetch` call: its outcome, the facade state it
leaves behind, and how many times it invoked the fetcher. -/
structure FetchResult (T : Type) where
  outcome : GoFetchOutcome T
  state : Cache T
  fetchCalls : Nat
deriving DecidableEq, Repr

/-- The part of `GetOrFetch` a caller runs after its `LoadOrStore` claimed
the registry entry (the "leader" continuation): re-check the backend;
`err == nil` → return the hit; a non-`MissingEntryError` error → return it
unchanged; `MissingEntryError` → invoke the fetcher once and then execute
`done <- ...`, a send on the already-closed channel, which panics before
the `defer c.rwQueue.Delete(key)` below it is ever registered. The fetcher
is a pure pair (its single invocation's result). -/
def Cache.getOrFetchLeader {T : Type} [Inhabited T] (c : Cache T) (key : String)
    (now : Nat) (fetcher : T × Option CacheError) : FetchResult T :=
  match c.get key now with
  | ((v, none), c2) => ⟨GoFetchOutcome.ret v none, c2, 0⟩
  | ((_, some (CacheError.missingEntry _)), c2) =>
      ⟨GoFetchOutcome.crashed, c2, 1⟩
  | ((v, some e), c2) => ⟨GoFetchOutcome.ret v (some e), c2, 0⟩

/-- `GetOrFetch` for a single caller: `rwQueue.LoadOrStore(key, done)`.
If an entry was already present the caller is a follower: the stored
channel is closed and empty, so `res := <-c` returns the zero value of
`getOrFetchResult[T]` at once and the call returns `(zero, nil)` leaving
the state untouched. Otherwise the claim is recorded and the leader
continuation runs. -/
def Cache.GetOrFetch {T : Type} [Inhabited T] (c : Cache T) (key : String)
    (now : Nat) (fetcher : T × Option CacheError) : FetchResult T :=
  if c.rwQueue.contains key then
    ⟨GoFetchOutcome.ret default none, c, 0⟩
  else
    Cache.getOrFetchLeader { c with rwQueue := key :: c.rwQueue } key now fetcher

/-- Two concurrent `GetOrFetch` calls on the same key with the same
fetcher, in the schedule where caller A's `LoadOrStore` wins the claim,
then caller B runs its entire call (B cannot block: the channel it finds
is already closed), then A resumes with its backend check. Returns
(A's result, B's result). -/
def GetOrFetchPair {T : Type} [Inhabited T] (c : Cache T) (key : String)
    (now : Nat) (fetcher : T × Option CacheError) : FetchResult T × FetchResult T :=
  let c1 : Cache T := { c with rwQueue := key :: c.rwQueue }
  let rB := c1.GetOrFetch key now fetcher
  let rA := rB.state.getOrFetchLeader key now fetcher
  (rA, rB)

/-- `StorageItemMulti` of the root package. -/
structure StorageItemMulti (T : Type) where
  Key : String
  Value : T
deriving DecidableEq, Repr

/-- `GetMulti`: iterate the requested keys in order, `get` each against
the current state (a failed `get` may delete an expired or corrupt slot),
keep the hits, silently skip every key whose `get` errs; the returned
error is always `nil`. -/
def Cache.GetMulti {T : Type} [Inhabited T] (c : Cache T) (keys : List String)
    (now : Nat) : (List (StorageItemMulti T) × Option CacheError) × Cache T :=
  match keys with
  | [] => (([], none), c)
  | k :: ks =>
    match c.get k now with
    | ((v, none), c1) =>
        let ((rest, e), c2) := c1.GetMulti ks now
        ((⟨k, v⟩ :: rest, e), c2)
    | ((_, some _), c1) => c1.GetMulti ks now

/-- One step of `AsMap`'s loop: the Go assignment `m[v.Key] = v.Value`,
seen as its effect on a lookup at `k`. -/
def asMapStep {T : Type} (m : String → Option T) (v : StorageItemMulti T) :
    String → Option T :=
  fun k => if k == v.Key then some v.Value else m k

/-- `AsMap` (asmap.go): fold the items left to right into a map, later
duplicates overwriting earlier ones. The Go map is modelled as a lookup
function `String → Option T` starting from the empty map. -/
def AsMap {T : Type} (xs : List (StorageItemMulti T)) : String → Option T :=
  xs.foldl asMapStep (fun _ => none)

/-! ### Backend store lemmas -/

theorem Storage.load_store_self {T : Type} (s : Storage T) (k : String) (r : Raw T) :
    (s.store k r).load k = some r := by
  simp [Storage.store, Storage.load]

theorem Storage.load_eraseKey_self {T : Type} (s : Storage T) (k : String) :
    (s.eraseKey k).load k = none := by
  simp [Storage.eraseKey, Storage.load]

example :
    ((Cache.mk ([] : Storage Nat) [] none).SetWithTTL "k" 42 10 0).get "k" 5 =
      ((42, none), (Cache.mk ([] : Storage Nat) [] none).SetWithTTL "k" 42 10 0) := by
  decide

example :
    ((((Cache.mk ([] : Storage Nat) [] none).SetWithTTL "k" 42 10 0).get "k" 10).1 =
      (0, some (CacheError.missingEntry "k"))) := by
  decide

example :
    ((Cache.mk ([] : Storage Nat) [] none).GetOrFetch "k" 0 (7, none)) =
      ⟨GoFetchOutcome.crashed, Cache.mk [] ["k"] none, 1⟩ := by
  decide

example :
    (GetOrFetchPair (Cache.mk ([] : Storage Nat) [] none) "k" 0 (1, none)).2.outcome
      = GoFetchOutcome.ret 0 none := by
  decide

example :
    AsMap [(⟨"a", 1⟩ : StorageItemMulti Nat), ⟨"b", 2⟩, ⟨"a", 3⟩] "a" = some 3 := by
  decide

/-! ### Claim theorems -/

/-- C1 (code bug): on an empty backend, two concurrent `GetOrFetch` calls
on `"k"` with a fetcher producing `(1, nil)` do invoke the fetcher exactly
once, but the callers do not both receive that `(1, nil)`: the follower
immediately receives the zero value `(0, nil)` from the closed channel,
and the leader panics sending on it — contradicting the claim that all
callers receive the pair the single invocation produced. -/
theorem getOrFetch_concurrent_dedup_bug :
    ((GetOrFetchPair (Cache.mk ([] : Storage Nat) [] none) "k" 0 (1, none)).2.outcome
        = GoFetchOutcome.ret 0 none) ∧
    ((GetOrFetchPair (Cache.mk ([] : Storage Nat) [] none) "k" 0 (1, none)).1.outcome
        = GoFetchOutcome.crashed) ∧
    ((GetOrFetchPair (Cache.mk ([] : Storage Nat) [] none) "k" 0 (1, none)).1.fetchCalls
        + (GetOrFetchPair (Cache.mk ([] : Storage Nat) [] none) "k" 0 (1, none)).2.fetchCalls
        = 1) ∧
    GoFetchOutcome.ret (0 : Nat) none ≠ GoFetchOutcome.ret 1 none := by
  decide

/-- C2 (code bug): a single `GetOrFetch` on the missing key `"k"` with a
fetcher producing `(7, nil)` invokes the fetcher exactly once, but then
crashes (send on the closed `done` channel) instead of returning the
fetcher's pair to the caller. -/
theorem getOrFetch_single_miss_crashes :
    ((Cache.mk ([] : Storage Nat) [] none).GetOrFetch "k" 0 (7, none)).fetchCalls = 1 ∧
    ((Cache.mk ([] : Storage Nat) [] none).GetOrFetch "k" 0 (7, none)).outcome
      = GoFetchOutcome.crashed := by
  decide

/-- C3 (code bug): after `GetOrFetch` on the missing key `"k"` whose
fetcher produced `(7, nil)`, the backend still has no entry under `"k"`:
the fetch path contains no `set` call at all (and panics besides), so the
fetched value is never persisted. -/
theorem getOrFetch_fetched_value_not_persisted :
    (((Cache.mk ([] : Storage Nat) [] none).GetOrFetch "k" 0 (7, none)).state.storage.load "k"
        = none) ∧
    ((Cache.mk ([] : Storage Nat) [] none).GetOrFetch "k" 0 (7, none)).outcome
      = GoFetchOutcome.crashed := by
  decide

/-- C4 (code bug): a `GetOrFetch` on key `"k"` that claims leadership and
hits a live backend entry returns the cached value normally, yet the
wait-registry entry it inserted is still present after the call: the
`rwQueue.Delete` is only a `defer` on the fetch path (after the panicking
send), and the early-return paths never delete at all. -/
theorem getOrFetch_registry_not_removed :
    (((Cache.mk [("k", Raw.entry ⟨0, none, (5 : Nat)⟩)] [] none : Cache Nat).GetOrFetch
        "k" 0 (7, none)).outcome = GoFetchOutcome.ret 5 none) ∧
    (((Cache.mk [("k", Raw.entry ⟨0, none, (5 : Nat)⟩)] [] none : Cache Nat).GetOrFetch
        "k" 0 (7, none)).state.rwQueue.contains "k" = true) := by
  decide

/-- C5 counterexample: with a live entry `5` under `"k"` and an empty
registry, `GetOrFetch` does interact with the wait registry — after the
call the registry holds `"k"` although it was empty before — refuting
"no interaction with the wait registry". -/
theorem getOrFetch_hit_touches_registry_cex :
    (((Cache.mk [("k", Raw.entry ⟨0, none, (5 : Nat)⟩)] [] none : Cache Nat).GetOrFetch
        "k" 0 (7, none)).state.rwQueue = ["k"]) ∧
    (["k"] ≠ ([] : List String)) := by
  decide

/-- C5 (amended): for a key holding a live backend entry and not claimed
in the wait registry, `GetOrFetch` returns the cached value directly with
no fetcher invocation — but it first inserts a wait-registry entry for the
key (before the backend check), and that entry is still in the registry
when the call returns. -/
theorem getOrFetch_hit_returns_cached {T : Type} [Inhabited T] (c : Cache T)
    (key : String) (now : Nat) (fetcher : T × Option CacheError) (e : WithTTL T)
    (hq : c.rwQueue.contains key = false)
    (hs : c.storage.load key = some (Raw.entry e))
    (hl : e.isLive now = true) :
    c.GetOrFetch key now fetcher =
      ⟨GoFetchOutcome.ret e.value none, { c with rwQueue := key :: c.rwQueue }, 0⟩ := by
  have hqm : key ∉ c.rwQueue := by simpa using hq
  simp [Cache.GetOrFetch, hq, hqm, Cache.getOrFetchLeader, Cache.get, hs, hl]

/-- Witness for the amended C5 theorem at a concrete input. -/
theorem getOrFetch_hit_returns_cached_witness :
    (Cache.mk [("k", Raw.entry ⟨0, some 9, (5 : Nat)⟩)] [] none : Cache Nat).GetOrFetch
        "k" 3 (7, none) =
      ⟨GoFetchOutcome.ret 5 none, Cache.mk [("k", Raw.entry ⟨0, some 9, 5⟩)] ["k"] none, 0⟩ :=
  getOrFetch_hit_returns_cached _ "k" 3 (7, none) ⟨0, some 9, 5⟩
    (by decide) (by decide) (by decide)

/-- C6 (confirmed): a key written at time `t0` with `ttl = d` is returned
by `get` (value and state unchanged) at every `now < t0 + d`; at every
`now ≥ t0 + d`, `get` yields `MissingEntry` and the entry is removed, so
the backend no longer holds the key afterwards. -/
theorem get_ttl_expiry {T : Type} [Inhabited T] (c : Cache T) (key : String)
    (v : T) (t0 d now : Nat) :
    (now < t0 + d →
      (c.SetWithTTL key v d t0).get key now =
        ((v, none), c.SetWithTTL key v d t0)) ∧
    (t0 + d ≤ now →
      ((c.SetWithTTL key v d t0).get key now).1 =
          (default, some (CacheError.missingEntry key)) ∧
      (((c.SetWithTTL key v d t0).get key now).2).storage.load key = none) := by
  have hload : (c.storage.store key (Raw.entry ⟨t0, some d, v⟩)).load key
      = some (Raw.entry ⟨t0, some d, v⟩) :=
    Storage.load_store_self _ _ _
  constructor
  · intro h
    simp [Cache.get, Cache.SetWithTTL, Cache.set, hload, WithTTL.isLive, h]
  · intro h
    have h2 : ¬ (now < t0 + d) := not_lt.mpr h
    simp [Cache.get, Cache.SetWithTTL, Cache.set, hload, WithTTL.isLive, h2,
      Storage.load_eraseKey_self]

/-- Witness for C6 at a concrete input: write `42` under `"k"` at `t0 = 0`
with `ttl = 10`; probe `get` at `now = 5` (live) and `now = 10` (expired). -/
theorem get_ttl_expiry_witness :
    (((Cache.mk ([] : Storage Nat) [] none).SetWithTTL "k" 42 10 0).get "k" 5 =
      ((42, none), (Cache.mk ([] : Storage Nat) [] none).SetWithTTL "k" 42 10 0)) ∧
    ((((Cache.mk ([] : Storage Nat) [] none).SetWithTTL "k" 42 10 0).get "k" 10).1 =
      (default, some (CacheError.missingEntry "k"))) ∧
    (((((Cache.mk ([] : Storage Nat) [] none).SetWithTTL "k" 42 10 0).get
        "k" 10).2).storage.load "k" = none) :=
  ⟨(get_ttl_expiry (Cache.mk [] [] none) "k" 42 0 10 5).1 (by decide),
   ((get_ttl_expiry (Cache.mk [] [] none) "k" 42 0 10 10).2 (by decide)).1,
   ((get_ttl_expiry (Cache.mk [] [] none) "k" 42 0 10 10).2 (by decide)).2⟩

/-- C7 (confirmed): when the backend slot under `key` holds a raw value
that does not downcast to `withTTL[T]`, `get` fails with
`FailedToCastEntry(key)` and deletes the corrupt slot, so a subsequent
backend probe finds the key absent. -/
theorem get_corrupt_self_heal {T : Type} [Inhabited T] (c : Cache T)
    (key : String) (now : Nat)
    (h : c.storage.load key = some Raw.corrupt) :
    (c.get key now).1 = (default, some (CacheError.failedToCastEntry key)) ∧
    ((c.get key now).2).storage.load key = none := by
  simp [Cache.get, h, Storage.load_eraseKey_self]

/-- Witness for C7 at a concrete input: a corrupt slot under `"k"`. -/
theorem get_corrupt_self_heal_witness :
    (((Cache.mk [("k", Raw.corrupt)] [] none : Cache Nat)).get "k" 0).1 =
        (default, some (CacheError.failedToCastEntry "k")) ∧
    ((((Cache.mk [("k", Raw.corrupt)] [] none : Cache Nat)).get "k" 0).2).storage.load "k"
        = none :=
  get_corrupt_self_heal _ "k" 0 (by decide)

/-- C8 (confirmed): for a caller that claims leadership, the fetcher is
invoked (exactly once) precisely when the initial backend check yields
`MissingEntry(key)`; a `FailedToCastEntry(key)` from the check is returned
to the caller unchanged with no fetcher invocation. -/
theorem getOrFetch_fetch_iff_missing {T : Type} [Inhabited T] (c : Cache T)
    (key : String) (now : Nat) (fetcher : T × Option CacheError)
    (hq : c.rwQueue.contains key = false) :
    ((c.GetOrFetch key now fetcher).fetchCalls = 1 ↔
      (c.get key now).1.2 = some (CacheError.missingEntry key)) ∧
    ((c.get key now).1.2 = some (CacheError.failedToCastEntry key) →
      (c.GetOrFetch key now fetcher).fetchCalls = 0 ∧
      (c.GetOrFetch key now fetcher).outcome =
        GoFetchOutcome.ret (c.get key now).1.1
          (some (CacheError.failedToCastEntry key))) := by
  have hqm : key ∉ c.rwQueue := by simpa using hq
  cases hload : c.storage.load key with
  | none =>
      simp [Cache.GetOrFetch, hq, hqm, Cache.getOrFetchLeader, Cache.get, hload]
  | some r =>
      cases r with
      | corrupt =>
          simp [Cache.GetOrFetch, hq, hqm, Cache.getOrFetchLeader, Cache.get, hload]
      | entry e =>
          by_cases hl : e.isLive now
          · simp [Cache.GetOrFetch, hq, hqm, Cache.getOrFetchLeader, Cache.get, hload, hl]
          · simp [Cache.GetOrFetch, hq, hqm, Cache.getOrFetchLeader, Cache.get, hload, hl]

/-- Witness for C8 at a concrete input: a corrupt slot under `"k"`, empty
registry — the check yields `FailedToCastEntry`, no fetch happens. -/
theorem getOrFetch_fetch_iff_missing_witness :
    ((((Cache.mk [("k", Raw.corrupt)] [] none : Cache Nat)).GetOrFetch "k" 0
          (5, none)).fetchCalls = 1 ↔
      (((Cache.mk [("k", Raw.corrupt)] [] none : Cache Nat)).get "k" 0).1.2 =
        some (CacheError.missingEntry "k")) ∧
    ((((Cache.mk [("k", Raw.corrupt)] [] none : Cache Nat)).get "k" 0).1.2 =
        some (CacheError.failedToCastEntry "k") →
      (((Cache.mk [("k", Raw.corrupt)] [] none : Cache Nat)).GetOrFetch "k" 0
          (5, none)).fetchCalls = 0 ∧
      (((Cache.mk [("k", Raw.corrupt)] [] none : Cache Nat)).GetOrFetch "k" 0
          (5, none)).outcome =
        GoFetchOutcome.ret (((Cache.mk [("k", Raw.corrupt)] [] none : Cache Nat)).get
            "k" 0).1.1
          (some (CacheError.failedToCastEntry "k"))) :=
  getOrFetch_fetch_iff_missing _ "k" 0 (5, none) (by decide)

/-- The bulk lookup's result sequence written from the spec's words
("defined purely as per-key iteration over `get`; a missing key during
`getMulti` is silently skipped — the result sequence's length may be less
than the requested key count"): keep, in request order, one item per
requested key whose `get` (against the running state) succeeds. Used to
compare `Cache.GetMulti` against the spec. -/
def getMultiSpecItems {T : Type} [Inhabited T] (c : Cache T) (keys : List String)
    (now : Nat) : List (StorageItemMulti T) :=
  match keys with
  | [] => []
  | k :: ks =>
    if (c.get k now).1.2 = none then
      ⟨k, (c.get k now).1.1⟩ :: getMultiSpecItems ((c.get k now).2) ks now
    else
      getMultiSpecItems ((c.get k now).2) ks now

/-- C9 (confirmed): `GetMulti` never errs; its result is exactly one item,
in request order, per requested key whose `get` succeeds (failures are
silently omitted); hence the keys of the result form a sublist of the
requested keys and the result is at most as long as the request. -/
theorem getMulti_partial_miss {T : Type} [Inhabited T] (c : Cache T)
    (keys : List String) (now : Nat) :
    ((c.GetMulti keys now).1.2 = none) ∧
    ((c.GetMulti keys now).1.1 = getMultiSpecItems c keys now) ∧
    List.Sublist ((c.GetMulti keys now).1.1.map StorageItemMulti.Key) keys ∧
    ((c.GetMulti keys now).1.1.length ≤ keys.length) := by
  induction keys generalizing c with
  | nil => simp [Cache.GetMulti, getMultiSpecItems]
  | cons k ks ih =>
    rcases hget : c.get k now with ⟨⟨v, err⟩, c1⟩
    obtain ⟨ih1, ih2, ih3, ih4⟩ := ih c1
    cases err with
    | none =>
        refine ⟨?_, ?_, ?_, ?_⟩
        · simpa [Cache.GetMulti, hget] using ih1
        · simpa [Cache.GetMulti, getMultiSpecItems, hget] using ih2
        · simpa [Cache.GetMulti, hget] using List.Sublist.cons₂ k ih3
        · simpa [Cache.GetMulti, hget, Nat.succ_le_succ_iff] using ih4
    | some e =>
        refine ⟨?_, ?_, ?_, ?_⟩
        · simpa [Cache.GetMulti, hget] using ih1
        · simpa [Cache.GetMulti, getMultiSpecItems, hget] using ih2
        · simpa [Cache.GetMulti, hget] using List.Sublist.cons k ih3
        · simp [Cache.GetMulti, hget]
          exact Nat.le_succ_of_le ih4

/-- Lookup at `k` after folding the Go loop of `AsMap` over `xs` starting
from an arbitrary map `m`: the last item of `xs` keyed `k` wins, and `m k`
answers when no item of `xs` is keyed `k`. -/
theorem asMap_foldl_lookup {T : Type} (xs : List (StorageItemMulti T))
    (m : String → Option T) (k : String) :
    xs.foldl asMapStep m k =
      match xs.reverse.find? (fun it => k == it.Key) with
      | some it => some it.Value
      | none => m k := by
  induction xs generalizing m with
  | nil => rfl
  | cons x xs ih =>
    rw [List.foldl_cons, ih, List.reverse_cons, List.find?_append]
    cases hfind : xs.reverse.find? (fun it => k == it.Key) with
    | some it => simp
    | none =>
        by_cases h : k == x.Key
        · simp [asMapStep, h]
        · simp [asMapStep, h]

/-- C10 (confirmed): `AsMap` maps `k` to the `Value` of the last item of
`xs` bearing key `k` (later duplicates overwrite earlier ones), and it is
defined at `k` exactly when `k` occurs among the keys of `xs`. -/
theorem asMap_last_duplicate_wins {T : Type} (xs : List (StorageItemMulti T))
    (k : String) :
    (AsMap xs k =
      (xs.reverse.find? (fun it => k == it.Key)).map StorageItemMulti.Value) ∧
    ((AsMap xs k).isSome ↔ k ∈ xs.map StorageItemMulti.Key) := by
  have hchar := asMap_foldl_lookup xs (fun _ => none) k
  constructor
  · rw [AsMap, hchar]
    cases xs.reverse.find? (fun it => k == it.Key) with
    | some it => simp
    | none => simp
  · rw [AsMap, hchar]
    cases hfind : xs.reverse.find? (fun it => k == it.Key) with
    | some it =>
        simp only [Option.isSome_some, true_iff]
        have := List.find?_some hfind
        have hmem : it ∈ xs.reverse := List.mem_of_find?_eq_some hfind
        have : k = it.Key := by simpa using this
        subst this
        exact List.mem_map_of_mem StorageItemMulti.Key (List.mem_reverse.mp hmem)
    | none =>
        simp only [Option.isSome_none, Bool.false_eq_true, false_iff]
        intro hmem
        obtain ⟨it, hit, hkey⟩ := List.mem_map.mp hmem
        have hnone := List.find?_eq_none.mp hfind it (List.mem_reverse.mpr hit)
        simp [hkey] at hnone

end CacheRepo
